import Mathlib

/-!
Shallow embedding of the formatting core (`src/formatting/formattable.rs`):
the `Formattable` contract, the custom format-item tree evaluator, and the
RFC 3339 serializer. Collaborator types and functions that are out of scope
of this core (the `Date`/`Time`/`UtcOffset` accessors, the numeric renderer
`format_number`, the component renderer `format_component`, the error enum
and the lossy UTF-8 decoder of the standard library) are modelled from the
specification, as marked on each definition. The byte sink is modelled as an
in-memory buffer (`Vec<u8>`), whose `write` accepts every byte and never
fails, so the `IO` error variant is never produced.
-/

set_option maxHeartbeats 1000000

/-- Modelled from the spec: the error taxonomy of section 7 (`error::Format`
is not part of this core's source). `io` is sink failure, never produced by
the in-memory sink model. -/
inductive Error.Format where
  | io
  | insufficientTypeInformation
  | invalidComponent (name : String)
deriving DecidableEq, Repr

/-- Modelled from the spec: the byte sink, an append-only in-memory buffer
(the `Vec<u8>` used by `format`). -/
structure Sink where
  buf : List Nat
deriving DecidableEq, Repr

/-- Modelled from the spec: `io::Write::write` on the in-memory sink:
appends the bytes and returns the count written (all of them). -/
def write (s : Sink) (bs : List Nat) : Sink × Nat :=
  (⟨s.buf ++ bs⟩, bs.length)

/-- Modelled from the spec: an opaque immutable date value with its
accessors `year`, `month`, `day` (their calendar logic is out of scope). -/
structure Date where
  year : Int
  month : Nat
  day : Nat
deriving DecidableEq, Repr

/-- Modelled from the spec: an opaque immutable time-of-day value with its
accessors `hour`, `minute`, `second`, `nanosecond`. -/
structure Time where
  hour : Nat
  minute : Nat
  second : Nat
  nanosecond : Nat
deriving DecidableEq, Repr

/-- Modelled from the spec: an opaque immutable zone offset, carried as a
total signed number of seconds east of UTC; sign is a property of the
offset as a whole, as the spec stipulates. -/
structure UtcOffset where
  seconds : Int
deriving DecidableEq, Repr

/-- Modelled from the spec: the zero (UTC) offset. -/
def UtcOffset.UTC : UtcOffset := ⟨0⟩

/-- Modelled from the spec: the whole-hours component of the offset
(truncated division, matching the component accessors of the offset type). -/
def UtcOffset.whole_hours (o : UtcOffset) : Int := o.seconds.tdiv 3600

/-- Modelled from the spec: the minutes-past-hour component of the offset
(same sign as the offset as a whole). -/
def UtcOffset.minutes_past_hour (o : UtcOffset) : Int :=
  (o.seconds.tdiv 60).tmod 60

/-- Modelled from the spec: the sub-minute seconds component of the offset. -/
def UtcOffset.seconds_past_minute (o : UtcOffset) : Int := o.seconds.tmod 60

/-- Modelled from the spec: whether the offset as a whole is negative. -/
def UtcOffset.is_negative (o : UtcOffset) : Bool := o.seconds < 0

/-- Modelled from the spec: the padding policy attached to a component. -/
inductive Padding where
  | zero
  | space
  | none
deriving DecidableEq, Repr

/-- Decimal digits of a natural number as ASCII bytes, most significant
first. -/
def natToDigits (n : Nat) : List Nat := (Nat.toDigits 10 n).map Char.toNat

/-- Modelled from the spec: the numeric renderer collaborator
`format_number(value, padding, width)`: fixed-width decimal rendering under
the padding policy (zero-fill, space-fill, or none). -/
def format_number (n : Nat) (p : Padding) (width : Nat) : List Nat :=
  let ds := natToDigits n
  match p with
  | .zero => List.replicate (width - ds.length) 48 ++ ds
  | .space => List.replicate (width - ds.length) 32 ++ ds
  | .none => ds

/-- Modelled from the spec: a component descriptor, an atomic named temporal
field together with its padding policy. -/
inductive Component where
  | year (p : Padding)
  | month (p : Padding)
  | day (p : Padding)
  | hour (p : Padding)
  | minute (p : Padding)
  | second (p : Padding)
  | offsetHour (p : Padding)
  | offsetMinute (p : Padding)
deriving DecidableEq, Repr

/-- Modelled from the spec: the component renderer collaborator: given one
named temporal field and whichever of date/time/offset are present, emits
that field's text, or fails with `InsufficientTypeInformation` when the one
source value it actually needs is missing. Its per-field logic is out of
scope and assumed correct. -/
def format_component (c : Component) (date : Option Date) (time : Option Time)
    (offset : Option UtcOffset) : Except Error.Format (List Nat) :=
  match c with
  | .year p =>
    match date with
    | .none => .error .insufficientTypeInformation
    | .some d => .ok (format_number d.year.natAbs p 4)
  | .month p =>
    match date with
    | .none => .error .insufficientTypeInformation
    | .some d => .ok (format_number d.month p 2)
  | .day p =>
    match date with
    | .none => .error .insufficientTypeInformation
    | .some d => .ok (format_number d.day p 2)
  | .hour p =>
    match time with
    | .none => .error .insufficientTypeInformation
    | .some t => .ok (format_number t.hour p 2)
  | .minute p =>
    match time with
    | .none => .error .insufficientTypeInformation
    | .some t => .ok (format_number t.minute p 2)
  | .second p =>
    match time with
    | .none => .error .insufficientTypeInformation
    | .some t => .ok (format_number t.second p 2)
  | .offsetHour p =>
    match offset with
    | .none => .error .insufficientTypeInformation
    | .some o => .ok (format_number o.whole_hours.natAbs p 2)
  | .offsetMinute p =>
    match offset with
    | .none => .error .insufficientTypeInformation
    | .some o => .ok (format_number o.minutes_past_hour.natAbs p 2)

/-- Modelled from the spec: the recursive, immutable format-item tree:
literal bytes, a single named component, or an ordered sequence of
sub-items. -/
inductive FormatItem where
  | literal (bytes : List Nat)
  | component (c : Component)
  | compound (items : List FormatItem)

mutual

/-- Translation of `<FormatItem as sealed::Formattable>::format_into`
(formattable.rs lines 51-63): a literal is written verbatim, a component is
delegated to `format_component`, a compound delegates to the slice
evaluator. Returns the sink after the call together with the byte count or
the error; the sink keeps whatever was written before an error. -/
def FormatItem.format_into (item : FormatItem) (s : Sink) (date : Option Date)
    (time : Option Time) (offset : Option UtcOffset) :
    Sink × Except Error.Format Nat :=
  match item with
  | .literal bytes =>
    let (s, n) := write s bytes
    (s, .ok n)
  | .component c =>
    match format_component c date time offset with
    | .error e => (s, .error e)
    | .ok bs =>
      let (s, n) := write s bs
      (s, .ok n)
  | .compound items => formatItems items s date time offset

/-- Translation of `<&[FormatItem] as sealed::Formattable>::format_into`
(formattable.rs lines 69-81): evaluates the items left to right, summing
byte counts, propagating the first error. -/
def formatItems (items : List FormatItem) (s : Sink) (date : Option Date)
    (time : Option Time) (offset : Option UtcOffset) :
    Sink × Except Error.Format Nat :=
  match items with
  | [] => (s, .ok 0)
  | item :: rest =>
    match item.format_into s date time offset with
    | (s, .error e) => (s, .error e)
    | (s, .ok n) =>
      match formatItems rest s date time offset with
      | (s, .error e) => (s, .error e)
      | (s, .ok m) => (s, .ok (n + m))

end

/-- Translation of the fraction-trimming match of `Rfc3339::format_into`
(formattable.rs lines 142-152): the `(value, width)` pair chosen for a
nonzero nanosecond value. -/
def rfc3339Fraction (nanos : Nat) : Nat × Nat :=
  if nanos % 10 ≠ 0 then (nanos, 9)
  else if nanos / 10 % 10 ≠ 0 then (nanos / 10, 8)
  else if nanos / 100 % 10 ≠ 0 then (nanos / 100, 7)
  else if nanos / 1000 % 10 ≠ 0 then (nanos / 1000, 6)
  else if nanos / 10000 % 10 ≠ 0 then (nanos / 10000, 5)
  else if nanos / 100000 % 10 ≠ 0 then (nanos / 100000, 4)
  else if nanos / 1000000 % 10 ≠ 0 then (nanos / 1000000, 3)
  else if nanos / 10000000 % 10 ≠ 0 then (nanos / 10000000, 2)
  else (nanos / 100000000, 1)

/-- Translation of `<Rfc3339 as sealed::Formattable>::format_into`
(formattable.rs lines 105-176): unwrap the three values, validate the year
range and the offset's sub-minute seconds, then emit the fixed layout,
threading the sink through each write exactly as the source does. -/
def Rfc3339.format_into (s : Sink) (date : Option Date) (time : Option Time)
    (offset : Option UtcOffset) : Sink × Except Error.Format Nat :=
  match date, time, offset with
  | .some date, .some time, .some offset =>
    if ¬ (0 ≤ date.year ∧ date.year < 10000) then
      (s, .error (.invalidComponent "year"))
    else if offset.seconds_past_minute ≠ 0 then
      (s, .error (.invalidComponent "offset_second"))
    else
      let (s, b0) := write s (format_number date.year.toNat .zero 4)
      let (s, b1) := write s [45]
      let (s, b2) := write s (format_number date.month .zero 2)
      let (s, b3) := write s [45]
      let (s, b4) := write s (format_number date.day .zero 2)
      let (s, b5) := write s [84]
      let (s, b6) := write s (format_number time.hour .zero 2)
      let (s, b7) := write s [58]
      let (s, b8) := write s (format_number time.minute .zero 2)
      let (s, b9) := write s [58]
      let (s, b10) := write s (format_number time.second .zero 2)
      let (s, b11) :=
        if time.nanosecond ≠ 0 then
          let (s, c0) := write s [46]
          let vw := rfc3339Fraction time.nanosecond
          let (s, c1) := write s (format_number vw.1 .zero vw.2)
          (s, c0 + c1)
        else (s, 0)
      if offset = UtcOffset.UTC then
        let (s, b12) := write s [90]
        (s, .ok (b0 + b1 + b2 + b3 + b4 + b5 + b6 + b7 + b8 + b9 + b10 + b11 + b12))
      else
        let (s, b12) := write s (if offset.is_negative then [45] else [43])
        let (s, b13) := write s (format_number offset.whole_hours.natAbs .zero 2)
        let (s, b14) := write s [58]
        let (s, b15) := write s (format_number offset.minutes_past_hour.natAbs .zero 2)
        (s, .ok (b0 + b1 + b2 + b3 + b4 + b5 + b6 + b7 + b8 + b9 + b10 + b11 + b12 + b13 + b14 + b15))
  | _, _, _ => (s, .error .insufficientTypeInformation)

/-- Follows the spec's wording for the offset suffix: `Z` for the zero
offset, otherwise the sign of the offset as a whole, the absolute hour
zero-padded to 2 digits, `:`, and the absolute minutes-past-hour
zero-padded to 2 digits. -/
def rfc3339OffsetSuffix (o : UtcOffset) : List Nat :=
  if o = UtcOffset.UTC then [90]
  else
    (if o.is_negative then [45] else [43]) ++
      format_number o.whole_hours.natAbs .zero 2 ++ [58] ++
      format_number o.minutes_past_hour.natAbs .zero 2

/-- Follows the spec's wording for the date-time core of the RFC 3339
layout: the 4-digit year, `-`, 2-digit month, `-`, 2-digit day, `T`,
2-digit hour, `:`, 2-digit minute, `:`, 2-digit second. -/
def rfc3339CoreBytes (d : Date) (t : Time) : List Nat :=
  format_number d.year.toNat .zero 4 ++ [45] ++
    format_number d.month .zero 2 ++ [45] ++
    format_number d.day .zero 2 ++ [84] ++
    format_number t.hour .zero 2 ++ [58] ++
    format_number t.minute .zero 2 ++ [58] ++
    format_number t.second .zero 2

/-- Follows the spec's wording for the fractional part: nothing when the
nanosecond value is zero, otherwise `.` followed by the trimmed fraction. -/
def rfc3339FractionBytes (t : Time) : List Nat :=
  if t.nanosecond = 0 then []
  else
    46 :: format_number (rfc3339Fraction t.nanosecond).1 .zero
      (rfc3339Fraction t.nanosecond).2

/-- Follows the spec's wording for the whole RFC 3339 layout: date-time
core, then the optional fraction, then the offset suffix. -/
def rfc3339ClaimedLayout (d : Date) (t : Time) (o : UtcOffset) : List Nat :=
  rfc3339CoreBytes d t ++ rfc3339FractionBytes t ++ rfc3339OffsetSuffix o

theorem rfc3339_format_into_eq (s : Sink) (d : Date) (t : Time) (o : UtcOffset)
    (hy : 0 ≤ d.year ∧ d.year < 10000) (ho : o.seconds_past_minute = 0) :
    Rfc3339.format_into s (some d) (some t) (some o) =
      (⟨s.buf ++ rfc3339ClaimedLayout d t o⟩,
       .ok (rfc3339ClaimedLayout d t o).length) := by
  simp only [Rfc3339.format_into]
  rw [if_neg (not_not_intro hy), if_neg (not_not_intro ho)]
  simp only [write, rfc3339ClaimedLayout, rfc3339CoreBytes, rfc3339FractionBytes,
    rfc3339OffsetSuffix]
  split_ifs <;>
    simp_all [List.append_assoc, List.length_append] <;> omega

/-- C1: for every date with year in [0, 10000), every time, and every offset
with zero sub-minute seconds, `Rfc3339.format_into` writes exactly, in
order, the 4-digit zero-padded year, `-`, 2-digit month, `-`, 2-digit day,
`T`, 2-digit hour, `:`, 2-digit minute, `:`, 2-digit second, then (only if
nanoseconds are nonzero) `.` plus the trimmed fraction, then the offset
suffix, and returns that byte count; at date 1970-01-01, time 00:00:00 with
nanosecond 0 and UTC offset the output is exactly the 20 bytes
`"1970-01-01T00:00:00Z"` (checked in the witness). -/
theorem claim1_rfc3339_layout (d : Date) (t : Time) (o : UtcOffset)
    (hy : 0 ≤ d.year ∧ d.year < 10000) (ho : o.seconds_past_minute = 0) :
    Rfc3339.format_into ⟨[]⟩ (some d) (some t) (some o) =
      (⟨rfc3339CoreBytes d t ++ rfc3339FractionBytes t ++ rfc3339OffsetSuffix o⟩,
       .ok (rfc3339CoreBytes d t ++ rfc3339FractionBytes t ++
          rfc3339OffsetSuffix o).length) := by
  simpa [rfc3339ClaimedLayout] using rfc3339_format_into_eq ⟨[]⟩ d t o hy ho

/-- Witness for C1 at date 1970-01-01, time 00:00:00.0, UTC offset: the
output is exactly the 20 bytes of `"1970-01-01T00:00:00Z"`. -/
theorem claim1_rfc3339_layout_witness :
    (0 ≤ (1970 : Int) ∧ (1970 : Int) < 10000) ∧
      UtcOffset.seconds_past_minute ⟨0⟩ = 0 ∧
      Rfc3339.format_into ⟨[]⟩ (some ⟨1970, 1, 1⟩) (some ⟨0, 0, 0, 0⟩) (some ⟨0⟩) =
        (⟨[49, 57, 55, 48, 45, 48, 49, 45, 48, 49, 84, 48, 48, 58, 48, 48, 58,
            48, 48, 90]⟩, .ok 20) := by
  refine ⟨by decide, by decide, ?_⟩
  rw [claim1_rfc3339_layout ⟨1970, 1, 1⟩ ⟨0, 0, 0, 0⟩ ⟨0⟩ (by decide) (by decide)]
  rfl

/-- C3: if any one of date, time, or offset is absent, `Rfc3339.format_into`
fails with `InsufficientTypeInformation` and writes no bytes to the sink,
for every combination of the other arguments. -/
theorem claim3_rfc3339_missing_value (s : Sink) (d : Option Date)
    (t : Option Time) (o : Option UtcOffset)
    (h : d = none ∨ t = none ∨ o = none) :
    Rfc3339.format_into s d t o = (s, .error .insufficientTypeInformation) := by
  cases d <;> cases t <;> cases o <;> simp_all [Rfc3339.format_into]

/-- Witness for C3 with the date absent and the other two present. -/
theorem claim3_rfc3339_missing_value_witness :
    Rfc3339.format_into ⟨[]⟩ none (some ⟨0, 0, 0, 0⟩) (some ⟨0⟩) =
      (⟨[]⟩, .error .insufficientTypeInformation) :=
  claim3_rfc3339_missing_value ⟨[]⟩ none (some ⟨0, 0, 0, 0⟩) (some ⟨0⟩)
    (Or.inl rfl)

/-- C5: with all three values present, a year in range, and zero sub-minute
offset seconds, the output of `Rfc3339.format_into` ends with the offset
suffix: the single byte `Z` when the offset equals exactly zero (UTC),
otherwise `-` when the offset as a whole is negative (also when its hour
component is zero) or `+` otherwise, then the absolute hour zero-padded to
2 digits, `:`, and the absolute minutes-past-hour zero-padded to 2 digits;
the witness checks that offset −00:30 renders as `"-00:30"`. -/
theorem claim5_rfc3339_offset_suffix (d : Date) (t : Time) (o : UtcOffset)
    (hy : 0 ≤ d.year ∧ d.year < 10000) (ho : o.seconds_past_minute = 0) :
    (Rfc3339.format_into ⟨[]⟩ (some d) (some t) (some o)).1.buf =
      rfc3339CoreBytes d t ++ rfc3339FractionBytes t ++
        (if o = UtcOffset.UTC then [90]
         else
           (if o.is_negative then [45] else [43]) ++
             format_number o.whole_hours.natAbs .zero 2 ++ [58] ++
             format_number o.minutes_past_hour.natAbs .zero 2) := by
  rw [rfc3339_format_into_eq ⟨[]⟩ d t o hy ho]
  simp [rfc3339ClaimedLayout, rfc3339OffsetSuffix]

/-- Witness for C5 at offset −00:30 (−1800 seconds): the offset suffix is
`"-00:30"`, sign preserved despite the zero hour component. -/
theorem claim5_rfc3339_offset_suffix_witness :
    (0 ≤ (1970 : Int) ∧ (1970 : Int) < 10000) ∧
      UtcOffset.seconds_past_minute ⟨-1800⟩ = 0 ∧
      (Rfc3339.format_into ⟨[]⟩ (some ⟨1970, 1, 1⟩) (some ⟨0, 0, 0, 0⟩)
          (some ⟨-1800⟩)).1.buf =
        [49, 57, 55, 48, 45, 48, 49, 45, 48, 49, 84, 48, 48, 58, 48, 48, 58,
          48, 48, 45, 48, 48, 58, 51, 48] := by
  refine ⟨by decide, by decide, ?_⟩
  rw [claim5_rfc3339_offset_suffix ⟨1970, 1, 1⟩ ⟨0, 0, 0, 0⟩ ⟨-1800⟩ (by decide)
    (by decide)]
  rfl

/-- C6: `Rfc3339.format_into` returns `InvalidComponent("year")` exactly when
the date's year lies outside `[0, 10000)`; in particular with year 9999 the
year check never raises that error. -/
theorem claim6_rfc3339_year_range (s : Sink) (d : Date) (t : Time)
    (o : UtcOffset) :
    (Rfc3339.format_into s (some d) (some t) (some o)).2 =
        .error (.invalidComponent "year") ↔
      d.year < 0 ∨ 10000 ≤ d.year := by
  simp only [Rfc3339.format_into, write]
  split_ifs <;> simp_all <;> omega

/-- C7: given all three values present and a year in range,
`Rfc3339.format_into` returns `InvalidComponent("offset_second")` exactly
when the offset's sub-minute seconds component is nonzero. -/
theorem claim7_rfc3339_offset_second (s : Sink) (d : Date) (t : Time)
    (o : UtcOffset) (hy : 0 ≤ d.year ∧ d.year < 10000) :
    ((Rfc3339.format_into s (some d) (some t) (some o)).2 =
        .error (.invalidComponent "offset_second") ↔
      o.seconds_past_minute ≠ 0) := by
  simp only [Rfc3339.format_into, write]
  split_ifs <;> simp_all

/-- Witness for C7 at an offset of 30 seconds: the call fails with
`InvalidComponent("offset_second")`. -/
theorem claim7_rfc3339_offset_second_witness :
    (0 ≤ (1970 : Int) ∧ (1970 : Int) < 10000) ∧
      (Rfc3339.format_into ⟨[]⟩ (some ⟨1970, 1, 1⟩) (some ⟨0, 0, 0, 0⟩)
          (some ⟨30⟩)).2 = .error (.invalidComponent "offset_second") :=
  ⟨by decide,
    (claim7_rfc3339_offset_second ⟨[]⟩ ⟨1970, 1, 1⟩ ⟨0, 0, 0, 0⟩ ⟨30⟩
      (by decide)).mpr (by decide)⟩

/-- C10: whenever `Rfc3339.format_into` returns `InvalidComponent` (for any
field name), the sink is completely untouched: both validation checks run
before the first output byte. -/
theorem claim10_rfc3339_invalid_writes_nothing (s : Sink) (d : Option Date)
    (t : Option Time) (o : Option UtcOffset) (name : String)
    (h : (Rfc3339.format_into s d t o).2 = .error (.invalidComponent name)) :
    (Rfc3339.format_into s d t o).1 = s := by
  cases d <;> cases t <;> cases o <;>
    simp_all only [Rfc3339.format_into, write] <;>
    split_ifs at h ⊢ <;> simp_all

/-- Witness for C10 at year 10000: the call fails with
`InvalidComponent("year")` and the sink still holds no bytes. -/
theorem claim10_rfc3339_invalid_writes_nothing_witness :
    (Rfc3339.format_into ⟨[]⟩ (some ⟨10000, 1, 1⟩) (some ⟨0, 0, 0, 0⟩)
        (some ⟨0⟩)).2 = .error (.invalidComponent "year") ∧
      (Rfc3339.format_into ⟨[]⟩ (some ⟨10000, 1, 1⟩) (some ⟨0, 0, 0, 0⟩)
          (some ⟨0⟩)).1 = ⟨[]⟩ :=
  ⟨rfl,
    claim10_rfc3339_invalid_writes_nothing ⟨[]⟩ (some ⟨10000, 1, 1⟩)
      (some ⟨0, 0, 0, 0⟩) (some ⟨0⟩) "year" rfl⟩

theorem rfc3339Fraction_char (n : Nat) (h1 : 1 ≤ n) (h2 : n ≤ 999999999) :
    ∃ v w, rfc3339Fraction n = (v, w) ∧ v * 10 ^ (9 - w) = n ∧ 1 ≤ w ∧ w ≤ 9 ∧
      v % 10 ≠ 0 := by
  unfold rfc3339Fraction
  split_ifs with a1 a2 a3 a4 a5 a6 a7 a8
  · exact ⟨n, 9, rfl, by norm_num, by norm_num, by norm_num, a1⟩
  · exact ⟨n / 10, 8, rfl, by norm_num; omega, by norm_num, by norm_num, a2⟩
  · exact ⟨n / 100, 7, rfl, by norm_num; omega, by norm_num, by norm_num, a3⟩
  · exact ⟨n / 1000, 6, rfl, by norm_num; omega, by norm_num, by norm_num, a4⟩
  · exact ⟨n / 10000, 5, rfl, by norm_num; omega, by norm_num, by norm_num, a5⟩
  · exact ⟨n / 100000, 4, rfl, by norm_num; omega, by norm_num, by norm_num, a6⟩
  · exact ⟨n / 1000000, 3, rfl, by norm_num; omega, by norm_num, by norm_num, a7⟩
  · exact ⟨n / 10000000, 2, rfl, by norm_num; omega, by norm_num, by norm_num, a8⟩
  · exact ⟨n / 100000000, 1, rfl, by norm_num; omega, by norm_num, by norm_num,
      by omega⟩

theorem width_minimal (n v w v' w' : Nat) (hv : v * 10 ^ (9 - w) = n)
    (hw9 : w ≤ 9) (hvd : v % 10 ≠ 0) (hv' : v' * 10 ^ (9 - w') = n) : w ≤ w' := by
  by_contra hlt
  push_neg at hlt
  have hsplit : 9 - w' = (w - w') + (9 - w) := by omega
  rw [hsplit, pow_add, ← mul_assoc] at hv'
  have hcancel : v' * 10 ^ (w - w') = v :=
    Nat.eq_of_mul_eq_mul_right (by positivity) (hv'.trans hv.symm)
  obtain ⟨k, hk⟩ : (10 : Nat) ∣ 10 ^ (w - w') := dvd_pow_self 10 (by omega)
  have hvmul : v = 10 * (v' * k) := by rw [← hcancel, hk]; ring
  exact hvd (by simp [hvmul, Nat.mul_mod_right])

/-- C2: for nonzero nanoseconds in range, the fraction-trimming match of the
RFC 3339 serializer chooses the unique smallest-width exact representation:
a pair `(value, width)` with `width ∈ [1, 9]`, `value * 10 ^ (9 - width)`
recovering the nanosecond value, satisfying the claim's side condition, of
minimal width among all such pairs, with the value determined uniquely by
that width; and the serializer emits `.` plus that value zero-padded to
that width exactly when the nanosecond value is nonzero, emitting neither
the decimal point nor any digit when it is zero. The witness checks that
nanosecond 120000000 yields the fraction `".12"`. -/
theorem claim2_rfc3339_fraction_trimming (n : Nat) (h1 : 1 ≤ n)
    (h2 : n ≤ 999999999) :
    ((rfc3339Fraction n).1 * 10 ^ (9 - (rfc3339Fraction n).2) = n ∧
      1 ≤ (rfc3339Fraction n).2 ∧ (rfc3339Fraction n).2 ≤ 9 ∧
      ((rfc3339Fraction n).2 = 9 ∨ (rfc3339Fraction n).1 % 10 ≠ 0) ∧
      (∀ v w, 1 ≤ w → w ≤ 9 → v * 10 ^ (9 - w) = n → (w = 9 ∨ v % 10 ≠ 0) →
        (rfc3339Fraction n).2 ≤ w) ∧
      (∀ v, v * 10 ^ (9 - (rfc3339Fraction n).2) = n →
        v = (rfc3339Fraction n).1)) ∧
    (∀ (d : Date) (t : Time) (o : UtcOffset),
      0 ≤ d.year ∧ d.year < 10000 → o.seconds_past_minute = 0 →
      (Rfc3339.format_into ⟨[]⟩ (some d) (some t) (some o)).1.buf =
        rfc3339CoreBytes d t ++
          (if t.nanosecond = 0 then []
           else 46 :: format_number (rfc3339Fraction t.nanosecond).1 .zero
             (rfc3339Fraction t.nanosecond).2) ++
          rfc3339OffsetSuffix o) := by
  constructor
  · obtain ⟨v, w, heq, hx, hw1, hw9, hvd⟩ := rfc3339Fraction_char n h1 h2
    rw [heq]
    refine ⟨hx, hw1, hw9, Or.inr hvd, ?_, ?_⟩
    · intro v' w' _ _ hv' _
      exact width_minimal n v w v' w' hx hw9 hvd hv'
    · intro v' hv'
      exact Nat.eq_of_mul_eq_mul_right (by positivity) (hv'.trans hx.symm)
  · intro d t o hy ho
    rw [rfc3339_format_into_eq ⟨[]⟩ d t o hy ho]
    simp [rfc3339ClaimedLayout, rfc3339FractionBytes]

/-- Witness for C2 at nanosecond 120000000: the trimmed pair is `(12, 2)` and
the full output at 1970-01-01T00:00:00.12 UTC ends in `".12Z"`. -/
theorem claim2_rfc3339_fraction_trimming_witness :
    ((1 : Nat) ≤ 120000000 ∧ (120000000 : Nat) ≤ 999999999) ∧
      (rfc3339Fraction 120000000).1 * 10 ^ (9 - (rfc3339Fraction 120000000).2) =
        120000000 ∧
      rfc3339Fraction 120000000 = (12, 2) ∧
      (Rfc3339.format_into ⟨[]⟩ (some ⟨1970, 1, 1⟩) (some ⟨0, 0, 0, 120000000⟩)
          (some ⟨0⟩)).1.buf =
        [49, 57, 55, 48, 45, 48, 49, 45, 48, 49, 84, 48, 48, 58, 48, 48, 58,
          48, 48, 46, 49, 50, 90] := by
  have h := claim2_rfc3339_fraction_trimming 120000000 (by norm_num) (by norm_num)
  refine ⟨⟨by norm_num, by norm_num⟩, h.1.1, by decide, ?_⟩
  rw [h.2 ⟨1970, 1, 1⟩ ⟨0, 0, 0, 120000000⟩ ⟨0⟩ (by decide) (by decide)]
  rfl

theorem formatItem_induct (P : FormatItem → Prop)
    (h1 : ∀ bs, P (FormatItem.literal bs))
    (h2 : ∀ c, P (FormatItem.component c))
    (h3 : ∀ items, (∀ i ∈ items, P i) → P (FormatItem.compound items)) :
    ∀ item, P item := by
  intro item
  refine @FormatItem.rec P (fun items => ∀ i ∈ items, P i) h1 h2 h3 ?_ ?_ item
  · intro i hi
    exact absurd hi (List.not_mem_nil i)
  · intro head tail hh ht i hi
    rcases List.mem_cons.mp hi with h | h
    · exact h ▸ hh
    · exact ht i h

theorem formatItems_frame_of (d : Option Date) (t : Option Time)
    (o : Option UtcOffset) (items : List FormatItem)
    (ih : ∀ i ∈ items, ∀ s : Sink,
      i.format_into s d t o =
        (⟨s.buf ++ (i.format_into ⟨[]⟩ d t o).1.buf⟩,
         (i.format_into ⟨[]⟩ d t o).2)) :
    ∀ s : Sink,
      formatItems items s d t o =
        (⟨s.buf ++ (formatItems items ⟨[]⟩ d t o).1.buf⟩,
         (formatItems items ⟨[]⟩ d t o).2) := by
  induction items with
  | nil => intro s; simp [formatItems]
  | cons head tail ihl =>
    intro s
    have hh := ih head (by simp)
    have ht := ihl (fun i hi => ih i (by simp [hi]))
    rcases hE : head.format_into ⟨[]⟩ d t o with ⟨s0, r0⟩
    rcases hT : formatItems tail ⟨[]⟩ d t o with ⟨s1, r1⟩
    have hh' : ∀ u : Sink, head.format_into u d t o = (⟨u.buf ++ s0.buf⟩, r0) := by
      intro u
      rw [hh u, hE]
    have ht' : ∀ u : Sink, formatItems tail u d t o = (⟨u.buf ++ s1.buf⟩, r1) := by
      intro u
      rw [ht u, hT]
    cases r0 with
    | error e =>
      simp [formatItems, hh' s, hh' ⟨[]⟩]
    | ok n =>
      cases r1 with
      | error e =>
        simp [formatItems, hh' s, hh' ⟨[]⟩, ht', List.append_assoc]
      | ok m =>
        simp [formatItems, hh' s, hh' ⟨[]⟩, ht', List.append_assoc]

theorem format_into_frame (d : Option Date) (t : Option Time)
    (o : Option UtcOffset) :
    ∀ (item : FormatItem) (s : Sink),
      item.format_into s d t o =
        (⟨s.buf ++ (item.format_into ⟨[]⟩ d t o).1.buf⟩,
         (item.format_into ⟨[]⟩ d t o).2) := by
  refine formatItem_induct _ ?_ ?_ ?_
  · intro bs s
    simp [FormatItem.format_into, write]
  · intro c s
    cases hc : format_component c d t o with
    | error e => simp [FormatItem.format_into, hc]
    | ok bs => simp [FormatItem.format_into, hc, write]
  · intro items ih s
    have h := formatItems_frame_of d t o items ih
    simp only [FormatItem.format_into]
    exact h s

/-- Byte count carried by a successful result, zero on error; used to state
the sum-of-counts law for compound nodes. -/
def okCount (r : Except Error.Format Nat) : Nat := r.toOption.getD 0

theorem formatItems_ok_concat (d : Option Date) (t : Option Time)
    (o : Option UtcOffset) (items : List FormatItem)
    (h : ∀ i ∈ items, ∃ n, (i.format_into ⟨[]⟩ d t o).2 = .ok n) :
    formatItems items ⟨[]⟩ d t o =
      (⟨(items.map fun i => (i.format_into ⟨[]⟩ d t o).1.buf).flatten⟩,
       .ok (items.map fun i => okCount (i.format_into ⟨[]⟩ d t o).2).sum) := by
  induction items with
  | nil => simp [formatItems, okCount]
  | cons head tail ih =>
    obtain ⟨n, hn⟩ := h head (by simp)
    have htail := ih (fun i hi => h i (by simp [hi]))
    rcases hE : head.format_into ⟨[]⟩ d t o with ⟨s0, r0⟩
    rw [hE] at hn
    simp only at hn
    subst hn
    have hframe := formatItems_frame_of d t o tail
      (fun i _ s => format_into_frame d t o i s) s0
    rw [htail] at hframe
    simp [formatItems, hE, hframe, htail, okCount, Except.toOption, List.append_assoc]

theorem formatItems_fail_fast (d : Option Date) (t : Option Time)
    (o : Option UtcOffset) (pre : List FormatItem) (i : FormatItem)
    (rest : List FormatItem) (e : Error.Format)
    (hpre : ∀ j ∈ pre, ∃ n, (j.format_into ⟨[]⟩ d t o).2 = .ok n)
    (he : (i.format_into ⟨[]⟩ d t o).2 = .error e) :
    formatItems (pre ++ i :: rest) ⟨[]⟩ d t o =
      (⟨(pre.map fun j => (j.format_into ⟨[]⟩ d t o).1.buf).flatten ++
          (i.format_into ⟨[]⟩ d t o).1.buf⟩, .error e) := by
  induction pre with
  | nil =>
    rcases hE : i.format_into ⟨[]⟩ d t o with ⟨s0, r0⟩
    rw [hE] at he
    simp only at he
    subst he
    simp [formatItems, hE]
  | cons p pre' ih =>
    obtain ⟨n, hn⟩ := hpre p (by simp)
    have ih' := ih (fun j hj => hpre j (by simp [hj]))
    rcases hE : p.format_into ⟨[]⟩ d t o with ⟨s0, r0⟩
    rw [hE] at hn
    simp only at hn
    subst hn
    have hframe := formatItems_frame_of d t o (pre' ++ i :: rest)
      (fun j _ s => format_into_frame d t o j s) s0
    rw [ih'] at hframe
    simp [formatItems, hE, hframe, List.append_assoc]

/-- C4: a compound node evaluates its children strictly left to right: its
result over any sink equals the flat ordered-sequence (slice) evaluator's
result on its child list; when every child succeeds the output is the
byte-for-byte concatenation of the children's own outputs and the returned
count is the sum of the children's counts; and the first failing child
aborts evaluation, so the output stops with that child's bytes and no later
child writes anything. -/
theorem claim4_compound_concat (items : List FormatItem) (d : Option Date)
    (t : Option Time) (o : Option UtcOffset) :
    (∀ s : Sink,
      (FormatItem.compound items).format_into s d t o =
        formatItems items s d t o) ∧
    ((∀ i ∈ items, ∃ n, (i.format_into ⟨[]⟩ d t o).2 = .ok n) →
      formatItems items ⟨[]⟩ d t o =
        (⟨(items.map fun i => (i.format_into ⟨[]⟩ d t o).1.buf).flatten⟩,
         .ok (items.map fun i => okCount (i.format_into ⟨[]⟩ d t o).2).sum)) ∧
    (∀ pre i rest e, items = pre ++ i :: rest →
      (∀ j ∈ pre, ∃ n, (j.format_into ⟨[]⟩ d t o).2 = .ok n) →
      (i.format_into ⟨[]⟩ d t o).2 = .error e →
      formatItems items ⟨[]⟩ d t o =
        (⟨(pre.map fun j => (j.format_into ⟨[]⟩ d t o).1.buf).flatten ++
            (i.format_into ⟨[]⟩ d t o).1.buf⟩, .error e)) := by
  refine ⟨?_, formatItems_ok_concat d t o items, ?_⟩
  · intro s
    simp [FormatItem.format_into]
  · intro pre i rest e hsplit hpre he
    rw [hsplit]
    exact formatItems_fail_fast d t o pre i rest e hpre he

/-- Witness for C4: the sequence literal "a", hour component, literal "b"
with no time value fails fast at the component, leaving exactly the byte of
"a" in the sink. -/
theorem claim4_compound_concat_witness :
    formatItems [FormatItem.literal [97], FormatItem.component (.hour .zero),
        FormatItem.literal [98]] ⟨[]⟩ none none none =
      (⟨[97]⟩, .error .insufficientTypeInformation) := by
  have h := (claim4_compound_concat
      [FormatItem.literal [97], FormatItem.component (.hour .zero),
        FormatItem.literal [98]] none none none).2.2
    [FormatItem.literal [97]] (FormatItem.component (.hour .zero))
    [FormatItem.literal [98]] .insufficientTypeInformation rfl
    (by
      rintro j hj
      simp only [List.mem_singleton] at hj
      subst hj
      exact ⟨1, rfl⟩)
    rfl
  exact h.trans rfl

mutual

/-- Follows the claim's wording: a tree consisting only of `Literal` nodes,
at any nesting depth under `Compound`. -/
def literalOnly : FormatItem → Bool
  | .literal _ => true
  | .component _ => false
  | .compound items => literalOnlyList items

/-- Follows the claim's wording, lifted to an ordered list of sub-items. -/
def literalOnlyList : List FormatItem → Bool
  | [] => true
  | i :: rest => literalOnly i && literalOnlyList rest

end

mutual

/-- Follows the claim's wording: the left-to-right concatenation of the
literal byte sequences of a tree. -/
def literalsOf : FormatItem → List Nat
  | .literal bs => bs
  | .component _ => []
  | .compound items => literalsOfList items

/-- Follows the claim's wording, lifted to an ordered list of sub-items. -/
def literalsOfList : List FormatItem → List Nat
  | [] => []
  | i :: rest => literalsOf i ++ literalsOfList rest

end

theorem formatItems_literal_list (d : Option Date) (t : Option Time)
    (o : Option UtcOffset) (items : List FormatItem)
    (ih : ∀ i ∈ items, literalOnly i = true → ∀ s : Sink,
      i.format_into s d t o =
        (⟨s.buf ++ literalsOf i⟩, .ok (literalsOf i).length))
    (h : literalOnlyList items = true) :
    ∀ s : Sink,
      formatItems items s d t o =
        (⟨s.buf ++ literalsOfList items⟩, .ok (literalsOfList items).length) := by
  induction items with
  | nil => intro s; simp [formatItems, literalsOfList]
  | cons head tail ihl =>
    intro s
    rw [literalOnlyList, Bool.and_eq_true] at h
    have hh := ih head (by simp) h.1 s
    have ht := ihl (fun i hi hli => ih i (by simp [hi]) hli) h.2
      ⟨s.buf ++ literalsOf head⟩
    simp [formatItems, hh, ht, literalsOfList, List.append_assoc,
      List.length_append]

/-- C8: for every format-item tree consisting only of `Literal` nodes at any
nesting depth, `format_into` writes exactly the left-to-right concatenation
of those literal byte sequences and returns its total length, for every
combination of date/time/offset arguments including all three absent: the
output is independent of the temporal values. -/
theorem claim8_literal_tree (item : FormatItem) (d : Option Date)
    (t : Option Time) (o : Option UtcOffset) (s : Sink)
    (h : literalOnly item = true) :
    item.format_into s d t o =
      (⟨s.buf ++ literalsOf item⟩, .ok (literalsOf item).length) := by
  revert s
  revert h
  refine formatItem_induct
    (fun item => literalOnly item = true → ∀ s : Sink,
      item.format_into s d t o =
        (⟨s.buf ++ literalsOf item⟩, .ok (literalsOf item).length))
    ?_ ?_ ?_ item
  · intro bs _ s
    simp [FormatItem.format_into, literalsOf, write]
  · intro c hfalse
    exact absurd hfalse (by simp [literalOnly])
  · intro items ih hcomp s
    rw [literalOnly] at hcomp
    have := formatItems_literal_list d t o items ih hcomp s
    simpa [FormatItem.format_into, literalsOf] using this

/-- Witness for C8 on the nested tree `Compound[Literal "a",
Compound[Literal "bc"], Literal "d"]` with all three temporal values
absent: the output is exactly `"abcd"`. -/
theorem claim8_literal_tree_witness :
    literalOnly (FormatItem.compound [FormatItem.literal [97],
        FormatItem.compound [FormatItem.literal [98, 99]],
        FormatItem.literal [100]]) = true ∧
      (FormatItem.compound [FormatItem.literal [97],
          FormatItem.compound [FormatItem.literal [98, 99]],
          FormatItem.literal [100]]).format_into ⟨[]⟩ none none none =
        (⟨[97, 98, 99, 100]⟩, .ok 4) := by
  refine ⟨rfl, ?_⟩
  rw [claim8_literal_tree (FormatItem.compound [FormatItem.literal [97],
    FormatItem.compound [FormatItem.literal [98, 99]],
    FormatItem.literal [100]]) none none none ⟨[]⟩ rfl]
  rfl

/-- Modelled from the spec: continuation-byte test of the UTF-8 decoder. -/
def utf8IsCont (b : Nat) : Bool := 0x80 ≤ b && b ≤ 0xBF

/-- Modelled from the spec: the lossy UTF-8 decode of the standard library
(`String::from_utf8_lossy`), which substitutes the replacement character
U+FFFD for any invalid byte sequence and never fails. The fuel argument is
an upper bound on the number of bytes, so the function is total. -/
def utf8LossyGo : Nat → List Nat → List Char
  | 0, _ => []
  | _, [] => []
  | fuel + 1, b :: rest =>
    if b < 0x80 then Char.ofNat b :: utf8LossyGo fuel rest
    else if 0xC2 ≤ b && b ≤ 0xDF then
      match rest with
      | b1 :: rest1 =>
        if utf8IsCont b1 then
          Char.ofNat ((b - 0xC0) * 64 + (b1 - 0x80)) :: utf8LossyGo fuel rest1
        else Char.ofNat 0xFFFD :: utf8LossyGo fuel rest
      | [] => [Char.ofNat 0xFFFD]
    else if 0xE0 ≤ b && b ≤ 0xEF then
      match rest with
      | b1 :: rest1 =>
        if (if b = 0xE0 then decide (0xA0 ≤ b1) && decide (b1 ≤ 0xBF)
            else if b = 0xED then decide (0x80 ≤ b1) && decide (b1 ≤ 0x9F)
            else utf8IsCont b1) then
          match rest1 with
          | b2 :: rest2 =>
            if utf8IsCont b2 then
              Char.ofNat ((b - 0xE0) * 4096 + (b1 - 0x80) * 64 + (b2 - 0x80)) ::
                utf8LossyGo fuel rest2
            else Char.ofNat 0xFFFD :: utf8LossyGo fuel rest1
          | [] => [Char.ofNat 0xFFFD]
        else Char.ofNat 0xFFFD :: utf8LossyGo fuel rest
      | [] => [Char.ofNat 0xFFFD]
    else if 0xF0 ≤ b && b ≤ 0xF4 then
      match rest with
      | b1 :: rest1 =>
        if (if b = 0xF0 then decide (0x90 ≤ b1) && decide (b1 ≤ 0xBF)
            else if b = 0xF4 then decide (0x80 ≤ b1) && decide (b1 ≤ 0x8F)
            else utf8IsCont b1) then
          match rest1 with
          | b2 :: rest2 =>
            if utf8IsCont b2 then
              match rest2 with
              | b3 :: rest3 =>
                if utf8IsCont b3 then
                  Char.ofNat ((b - 0xF0) * 262144 + (b1 - 0x80) * 4096 +
                      (b2 - 0x80) * 64 + (b3 - 0x80)) :: utf8LossyGo fuel rest3
                else Char.ofNat 0xFFFD :: utf8LossyGo fuel rest2
              | [] => [Char.ofNat 0xFFFD]
            else Char.ofNat 0xFFFD :: utf8LossyGo fuel rest1
          | [] => [Char.ofNat 0xFFFD]
        else Char.ofNat 0xFFFD :: utf8LossyGo fuel rest
      | [] => [Char.ofNat 0xFFFD]
    else Char.ofNat 0xFFFD :: utf8LossyGo fuel rest

/-- Modelled from the spec: the lossy decode of a byte buffer to text. -/
def utf8LossyDecode (bs : List Nat) : String := ⟨utf8LossyGo bs.length bs⟩

/-- Translation of the trait's provided method `Formattable::format`
(formattable.rs lines 33-43), stated for any implementer given by its
`format_into` function: format into a fresh in-memory buffer (whose `flush`
is a no-op), then decode the buffer lossily to text. -/
def Formattable.format
    (fi : Sink → Option Date → Option Time → Option UtcOffset →
      Sink × Except Error.Format Nat)
    (date : Option Date) (time : Option Time) (offset : Option UtcOffset) :
    Except Error.Format String :=
  match fi ⟨[]⟩ date time offset with
  | (_, .error e) => .error e
  | (buf, .ok _) => .ok (utf8LossyDecode buf.buf)

/-- C9: the convenience `format` operation equals `format_into` applied to a
fresh in-memory buffer followed by a lossy UTF-8 decode of that buffer: it
succeeds with the decoded text whenever `format_into` succeeds (the decode
itself never fails, it only degrades invalid bytes to the replacement
marker), and it fails with exactly the error of `format_into` otherwise. -/
theorem claim9_format_wrapper
    (fi : Sink → Option Date → Option Time → Option UtcOffset →
      Sink × Except Error.Format Nat)
    (d : Option Date) (t : Option Time) (o : Option UtcOffset) :
    (∀ e, (fi ⟨[]⟩ d t o).2 = .error e →
      Formattable.format fi d t o = .error e) ∧
    (∀ n, (fi ⟨[]⟩ d t o).2 = .ok n →
      Formattable.format fi d t o = .ok (utf8LossyDecode (fi ⟨[]⟩ d t o).1.buf)) := by
  refine ⟨?_, ?_⟩
  · intro e he
    rcases hE : fi ⟨[]⟩ d t o with ⟨buf, r⟩
    rw [hE] at he
    simp only at he
    subst he
    simp [Formattable.format, hE]
  · intro n hn
    rcases hE : fi ⟨[]⟩ d t o with ⟨buf, r⟩
    rw [hE] at hn
    simp only at hn
    subst hn
    simp [Formattable.format, hE]

/-- Witness for C9 on the RFC 3339 serializer: a successful call yields the
decoded text `"1970-01-01T00:00:00Z"`, and a failing call (absent date)
yields exactly the error of `format_into`. -/
theorem claim9_format_wrapper_witness :
    (Rfc3339.format_into ⟨[]⟩ (some ⟨1970, 1, 1⟩) (some ⟨0, 0, 0, 0⟩)
        (some ⟨0⟩)).2 = .ok 20 ∧
      Formattable.format Rfc3339.format_into (some ⟨1970, 1, 1⟩)
          (some ⟨0, 0, 0, 0⟩) (some ⟨0⟩) = .ok "1970-01-01T00:00:00Z" ∧
      Formattable.format Rfc3339.format_into none none none =
        .error .insufficientTypeInformation := by
  refine ⟨rfl, ?_, ?_⟩
  · rw [(claim9_format_wrapper Rfc3339.format_into (some ⟨1970, 1, 1⟩)
      (some ⟨0, 0, 0, 0⟩) (some ⟨0⟩)).2 20 rfl]
    rfl
  · exact (claim9_format_wrapper Rfc3339.format_into none none none).1
      .insufficientTypeInformation rfl

/-- Witness for C6: year 10000 fails with `InvalidComponent("year")` while
year 9999 never raises that error. -/
theorem claim6_rfc3339_year_range_witness :
    (Rfc3339.format_into ⟨[]⟩ (some ⟨10000, 1, 1⟩) (some ⟨0, 0, 0, 0⟩)
        (some ⟨0⟩)).2 = .error (.invalidComponent "year") ∧
      ¬(Rfc3339.format_into ⟨[]⟩ (some ⟨9999, 1, 1⟩) (some ⟨0, 0, 0, 0⟩)
          (some ⟨0⟩)).2 = .error (.invalidComponent "year") := by
  constructor
  · exact (claim6_rfc3339_year_range ⟨[]⟩ ⟨10000, 1, 1⟩ ⟨0, 0, 0, 0⟩ ⟨0⟩).mpr
      (by norm_num)
  · intro h
    have hy := (claim6_rfc3339_year_range ⟨[]⟩ ⟨9999, 1, 1⟩ ⟨0, 0, 0, 0⟩ ⟨0⟩).mp h
    norm_num at hy
